import Mathlib

/-!
Git tag endpoints of the GitHub REST client (`github/git_tags.go`)

A shallow embedding of `Tag`, `createTagRequest`, `GitService.GetTag` and
`GitService.CreateTag`.

Conventions of the embedding

* A Go pointer field `*T` is an `Option T`; `nil` is `none`.
* In the endpoints, which copy strings without looking into them, Go strings
  are Lean strings (texts). The wire format of `Tag` does look into them, and is
  defined over byte strings (`GoString`, `TagBytes`), valid UTF-8 or not.
* `CommitAuthor` and `SignatureVerification` are declared in other files of the
  package; they are the type parameters `A` and `V`.
* The shared client (`s.client`) is declared in another file of the package; its
  two methods `NewRequest` and `Do` are the fields of `Client`, arbitrary
  functions over an arbitrary collaborator state `σ`.
* Every invocation of a client method is appended to a ghost log
  (`World.calls`), so that statements of the form "the builder is invoked
  once" or "the executor is never invoked" can be expressed.
-/

set_option linter.dupNamespace false

namespace GoGithub

/-! ## Data model -/

/-- Modelled from the spec: `GitObject` is declared in another file of the
package. The spec describes it as the target object reference (SHA + type);
`CreateTag` reads its fields `SHA` and `Type`, both `*string` since they are
assigned to `*string` fields. Whatever else the struct holds is `rest`. -/
structure GitObject (X : Type) where
  SHA : Option String
  Type_ : Option String
  rest : X

/-- Tag represents a tag object. -/
structure Tag (A X V : Type) where
  Tag : Option String
  SHA : Option String
  URL : Option String
  Message : Option String
  Tagger : Option A
  Object : Option (GitObject X)
  Verification : Option V
  NodeID : Option String

/-- The value `new(Tag)` points to: every field nil. -/
def newTag {A X V : Type} : Tag A X V :=
  { Tag := none, SHA := none, URL := none, Message := none, Tagger := none,
    Object := none, Verification := none, NodeID := none }

/-- The body of a CreateTag request: like `Tag`, except that the object SHA and
type are top-level fields rather than nested inside a JSON object. -/
structure createTagRequest (A : Type) where
  Tag : Option String
  Message : Option String
  Object : Option String
  Type_ : Option String
  Tagger : Option A

/-- Go `error` values: the ones built by `errors.New`, and all others (identified
by a number, with the text their `Error` method returns). -/
inductive GoError where
  | errorString (s : String)
  | foreign (id : Nat) (text : String)
  deriving DecidableEq, Repr

/-- The `Error()` method. -/
def GoError.Error : GoError → String
  | .errorString s => s
  | .foreign _ text => text

/-- The function `errors.New`. -/
def errorsNew (text : String) : GoError := GoError.errorString text

/-! ## The wire format

The struct tags of `Tag` and `createTagRequest` (`json:"<key>,omitempty"` on
pointer fields) fix the JSON form of both structs under Go's `encoding/json`:
members appear in field declaration order under the tagged key, and a member is
left out exactly when the pointer is nil. JSON documents are modelled as trees;
`JSON.render` produces the compact text `encoding/json` emits for a tree. -/

/-- JSON documents. Numbers carry their literal text. Object members are kept in
order. -/
inductive JSON where
  | null
  | bool (b : Bool)
  | num (literal : String)
  | str (s : String)
  | arr (items : List JSON)
  | obj (members : List (String × JSON))

/-- Lower-case hexadecimal digit. -/
def hexDigit (n : Nat) : Char := "0123456789abcdef".data.getD n '0'

/-- Escaping of one character inside a JSON string literal, as `encoding/json`
does it: the quote and the backslash get a backslash; backspace, form feed, line
feed, carriage return and tab get their short form; the other control
characters, and with `escapeHTML` set also the characters less-than,
greater-than and ampersand, are written as a four-digit hexadecimal escape; so
are U+2028 and U+2029. -/
def escapeChar (escapeHTML : Bool) (c : Char) : List Char :=
  if c = '\\' ∨ c = '"' then ['\\', c]
  else if c.toNat = 0x08 then ['\\', 'b']
  else if c.toNat = 0x0c then ['\\', 'f']
  else if c = '\n' then ['\\', 'n']
  else if c = '\r' then ['\\', 'r']
  else if c = '\t' then ['\\', 't']
  else if c.toNat < 0x20 ∨ (escapeHTML = true ∧ (c = '<' ∨ c = '>' ∨ c = '&')) then
    ['\\', 'u', '0', '0', hexDigit (c.toNat / 16), hexDigit (c.toNat % 16)]
  else if c.toNat = 0x2028 then ['\\', 'u', '2', '0', '2', '8']
  else if c.toNat = 0x2029 then ['\\', 'u', '2', '0', '2', '9']
  else [c]

/-- A JSON string literal. -/
def quote (escapeHTML : Bool) (s : String) : List Char :=
  ['"'] ++ (s.data.map (escapeChar escapeHTML)).flatten ++ ['"']

mutual
/-- Compact JSON text of a document, as a list of characters. -/
def JSON.renderL (h : Bool) : JSON → List Char
  | .null => "null".data
  | .bool true => "true".data
  | .bool false => "false".data
  | .num l => l.data
  | .str s => quote h s
  | .arr xs => ['['] ++ renderItems h xs ++ [']']
  | .obj ms => ['{'] ++ renderMembers h ms ++ ['}']
/-- Array items separated by commas. -/
def renderItems (h : Bool) : List JSON → List Char
  | [] => []
  | [x] => JSON.renderL h x
  | x :: y :: r => JSON.renderL h x ++ [','] ++ renderItems h (y :: r)
/-- Object members separated by commas. -/
def renderMembers (h : Bool) : List (String × JSON) → List Char
  | [] => []
  | [(k, v)] => quote h k ++ [':'] ++ JSON.renderL h v
  | (k, v) :: m :: r =>
    quote h k ++ [':'] ++ JSON.renderL h v ++ [','] ++ renderMembers h (m :: r)
end

/-- Compact JSON text of a document. -/
def JSON.render (escapeHTML : Bool) (j : JSON) : String := String.mk (j.renderL escapeHTML)

/-- The value stored under a key of an object (the first one, should the key
occur more than once); `none` when the key does not occur or the document is not
an object. -/
def JSON.lookup (key : String) : JSON → Option JSON
  | .obj ms => ms.lookup key
  | _ => none

/-- The keys of an object, in order. -/
def JSON.keys : JSON → List String
  | .obj ms => ms.map Prod.fst
  | _ => []

/-- JSON form of a type declared outside this file: its zero value, its encoder
and its decoder (which, like `json.Unmarshal`, fills an existing value and may
fail). -/
structure Codec (T : Type) where
  zero : T
  enc : T → JSON
  dec : T → JSON → Option T

/-- A member tagged `omitempty` on a pointer field: left out when the pointer is
nil. -/
def omitEmpty (key : String) (v : Option JSON) : List (String × JSON) :=
  match v with
  | some j => [(key, j)]
  | none => []

/-- JSON form of a `createTagRequest`, from its struct tags. -/
def encodeCreateTagRequest {A : Type} (cA : Codec A) (r : createTagRequest A) : JSON :=
  .obj (omitEmpty "tag" (r.Tag.map .str)
    ++ omitEmpty "message" (r.Message.map .str)
    ++ omitEmpty "object" (r.Object.map .str)
    ++ omitEmpty "type" (r.Type_.map .str)
    ++ omitEmpty "tagger" (r.Tagger.map cA.enc))

/-! ### Go strings on the wire

A Go string is a sequence of bytes and need not be valid UTF-8. The endpoints
copy strings without looking into them, so the embedding of `Tag` above keeps
them as text; `encoding/json` does look into them: the encoder writes every byte
that is not part of a valid UTF-8 sequence as U+FFFD, and the decoder produces
the UTF-8 bytes of the JSON string. `TagBytes` is `Tag` with its strings byte for
byte, and the wire form of `Tag` is defined on it. -/

/-- A Go string value: a sequence of bytes. -/
abbrev GoString := List (Fin 256)

/-- Lowest second byte accepted after the given first byte. -/
def acceptLo (b0 : Nat) : Nat := if b0 = 0xE0 then 0xA0 else if b0 = 0xF0 then 0x90 else 0x80

/-- Highest second byte accepted after the given first byte. -/
def acceptHi (b0 : Nat) : Nat := if b0 = 0xED then 0x9F else if b0 = 0xF4 then 0x8F else 0xBF

/-- Decoding of the first UTF-8 sequence of a Go string (`utf8.DecodeRune`): the
character and the bytes after it, or `none` where Go reports `RuneError` with
width 1 (no valid sequence starts here: a stray continuation byte, a truncated
or overlong sequence, a surrogate, a value above U+10FFFF) or the string is
empty. -/
def decodeRune : GoString → Option (Char × GoString)
  | [] => none
  | b0 :: rest =>
    if b0.val < 0x80 then some (Char.ofNat b0.val, rest)
    else if b0.val < 0xC2 ∨ 0xF4 < b0.val then none
    else
      match rest with
      | [] => none
      | b1 :: r1 =>
        if b1.val < acceptLo b0.val ∨ acceptHi b0.val < b1.val then none
        else if b0.val < 0xE0 then some (Char.ofNat (b0.val % 32 * 64 + b1.val % 64), r1)
        else
          match r1 with
          | [] => none
          | b2 :: r2 =>
            if b2.val < 0x80 ∨ 0xBF < b2.val then none
            else if b0.val < 0xF0 then
              some (Char.ofNat (b0.val % 16 * 4096 + b1.val % 64 * 64 + b2.val % 64), r2)
            else
              match r2 with
              | [] => none
              | b3 :: r3 =>
                if b3.val < 0x80 ∨ 0xBF < b3.val then none
                else some (Char.ofNat (b0.val % 8 * 262144 + b1.val % 64 * 4096
                  + b2.val % 64 * 64 + b3.val % 64), r3)

/-- The characters the JSON encoder writes for a Go string, by a loop that makes
at most `fuel` steps: a valid sequence gives its character, any other byte gives
U+FFFD and is skipped alone. Every step consumes at least one byte. -/
def toValidUTF8Aux : Nat → GoString → List Char
  | 0, _ => []
  | _ + 1, [] => []
  | fuel + 1, b0 :: rest =>
    match decodeRune (b0 :: rest) with
    | some (c, r) => c :: toValidUTF8Aux fuel r
    | none => Char.ofNat 0xFFFD :: toValidUTF8Aux fuel rest

/-- The fields of `Tag`. -/
inductive TagField where
  | Tag | SHA | URL | Message | Tagger | Object | Verification | NodeID
  deriving DecidableEq, Repr

/-- The JSON key of a field, from its struct tag. -/
def TagField.key : TagField → String
  | .Tag => "tag"
  | .SHA => "sha"
  | .URL => "url"
  | .Message => "message"
  | .Tagger => "tagger"
  | .Object => "object"
  | .Verification => "verification"
  | .NodeID => "node_id"

/-- The two client methods used by the tag endpoints. `NewRequest` takes the
method, the path and the body (`nil` or a `*createTagRequest`) and returns
`(*http.Request, error)`. `Do` takes the context, the request and the value the
destination pointer refers to, and returns the value it left in the destination
together with `(*Response, error)`. Both may read and change the collaborator
state. -/
structure Client (A X V Ctx Req Resp σ : Type) where
  NewRequest : String → String → Option (createTagRequest A) → σ →
    (Option Req × Option GoError) × σ
  Do : Ctx → Option Req → Tag A X V → σ →
    (Tag A X V × Option Resp × Option GoError) × σ

/-- One invocation of a client method, with its arguments. -/
inductive Call (A X V Ctx Req : Type) where
  | NewRequest (method urlStr : String) (body : Option (createTagRequest A))
  | Do (ctx : Ctx) (req : Option Req) (v : Tag A X V)

/-- Collaborator state plus the log of client calls made so far, oldest first. -/
structure World (A X V Ctx Req σ : Type) where
  st : σ
  calls : List (Call A X V Ctx Req)

/-- Predicate: the call is an invocation of the request builder. -/
def Call.isNewRequest {A X V Ctx Req : Type} : Call A X V Ctx Req → Bool
  | .NewRequest _ _ _ => true
  | .Do _ _ _ => false

/-- Predicate: the call is an invocation of the executor. -/
def Call.isDo {A X V Ctx Req : Type} : Call A X V Ctx Req → Bool
  | .NewRequest _ _ _ => false
  | .Do _ _ _ => true

section Service

variable {A X V Ctx Req Resp σ : Type}

/-- Invoke `client.NewRequest` and record the invocation. -/
def Client.callNewRequest (c : Client A X V Ctx Req Resp σ) (method urlStr : String)
    (body : Option (createTagRequest A)) (w : World A X V Ctx Req σ) :
    (Option Req × Option GoError) × World A X V Ctx Req σ :=
  let r := c.NewRequest method urlStr body w.st
  (r.1, { st := r.2, calls := w.calls ++ [Call.NewRequest method urlStr body] })

/-- Invoke `client.Do` and record the invocation. -/
def Client.callDo (c : Client A X V Ctx Req Resp σ) (ctx : Ctx) (req : Option Req)
    (v : Tag A X V) (w : World A X V Ctx Req σ) :
    (Tag A X V × Option Resp × Option GoError) × World A X V Ctx Req σ :=
  let r := c.Do ctx req v w.st
  (r.1, { st := r.2, calls := w.calls ++ [Call.Do ctx req v] })

/-- The service: a handle on the shared client. -/
structure GitService (A X V Ctx Req Resp σ : Type) where
  client : Client A X V Ctx Req Resp σ

/-- The three results of an endpoint: `(*Tag, *Response, error)`. -/
abbrev Outcome (A X V Resp : Type) := Option (Tag A X V) × Option Resp × Option GoError

/-- GetTag fetches a tag from a repo given a SHA. -/
def GitService.GetTag (s : GitService A X V Ctx Req Resp σ) (ctx : Ctx)
    (owner repo sha : String) (w : World A X V Ctx Req σ) :
    Outcome A X V Resp × World A X V Ctx Req σ :=
  let u := "repos/" ++ owner ++ "/" ++ repo ++ "/git/tags/" ++ sha
  match s.client.callNewRequest "GET" u none w with
  | ((_, some err), w1) => ((none, none, some err), w1)
  | ((req, none), w1) =>
    let tag : Tag A X V := newTag
    match s.client.callDo ctx req tag w1 with
    | ((_, resp, some err), w2) => ((none, resp, some err), w2)
    | ((tag1, resp, none), w2) => ((some tag1, resp, none), w2)

/-- CreateTag creates a tag object. -/
def GitService.CreateTag (s : GitService A X V Ctx Req Resp σ) (ctx : Ctx)
    (owner repo : String) (tag : Option (Tag A X V)) (w : World A X V Ctx Req σ) :
    Outcome A X V Resp × World A X V Ctx Req σ :=
  match tag with
  | none => ((none, none, some (errorsNew "tag must be provided")), w)
  | some tag =>
    let u := "repos/" ++ owner ++ "/" ++ repo ++ "/git/tags"
    -- convert Tag into a createTagRequest
    let tagRequest : createTagRequest A :=
      { Tag := tag.Tag, Message := tag.Message, Tagger := tag.Tagger,
        Object := none, Type_ := none }
    let tagRequest : createTagRequest A :=
      match tag.Object with
      | some o => { tagRequest with Object := o.SHA, Type_ := o.Type_ }
      | none => tagRequest
    match s.client.callNewRequest "POST" u (some tagRequest) w with
    | ((_, some err), w1) => ((none, none, some err), w1)
    | ((req, none), w1) =>
      let t : Tag A X V := newTag
      match s.client.callDo ctx req t w1 with
      | ((_, resp, some err), w2) => ((none, resp, some err), w2)
      | ((t1, resp, none), w2) => ((some t1, resp, none), w2)

end Service

end GoGithub

namespace GoGithub

/-! ## Closed forms used in the statements -/

/-- The path `GetTag` formats. -/
def getTagPath (owner repo sha : String) : String :=
  "repos/" ++ owner ++ "/" ++ repo ++ "/git/tags/" ++ sha

/-- The path `CreateTag` formats. -/
def createTagPath (owner repo : String) : String :=
  "repos/" ++ owner ++ "/" ++ repo ++ "/git/tags"

/-- The conversion block of `CreateTag` in closed form: the create-request a
`Tag` is projected into. -/
def projectTag {A X V : Type} (t : Tag A X V) : createTagRequest A :=
  { Tag := t.Tag, Message := t.Message,
    Object := t.Object.bind (fun o => o.SHA),
    Type_ := t.Object.bind (fun o => o.Type_),
    Tagger := t.Tagger }

/-! ## A concrete collaborator, used to instantiate the statements -/

/-- A small client: requests are (method, path) pairs, response metadata is a
status code, the collaborator state counts the round trips made. The builder
rejects a path holding a blank; the executor answers the first round trip with a
502 and an error, and every later one with a 201 and a decoded tag. -/
def demoClient : Client String Unit Bool Unit (String × String) Nat Nat where
  NewRequest := fun method urlStr _ st =>
    if ' ' ∈ urlStr.data then ((none, some (GoError.foreign 1 "malformed path")), st)
    else ((some (method, urlStr), none), st)
  Do := fun _ req v st =>
    match req with
    | none => ((v, none, some (GoError.foreign 2 "nil request")), st)
    | some _ =>
      if st = 0 then ((v, some 502, some (GoError.foreign 3 "bad gateway")), st + 1)
      else (({ v with Tag := some "v1.0", SHA := some "0a1b2c" }, some 201, none), st + 1)

/-- The service over `demoClient`. -/
def demoService : GitService String Unit Bool Unit (String × String) Nat Nat :=
  { client := demoClient }

/-- A world in which no round trip has been made yet. -/
def coldWorld : World String Unit Bool Unit (String × String) Nat :=
  { st := 0, calls := [] }

/-- A world in which three round trips have been made. -/
def warmWorld : World String Unit Bool Unit (String × String) Nat :=
  { st := 3, calls := [] }

/-- The tag the demo executor decodes. -/
def demoDecoded : Tag String Unit Bool :=
  { Tag := some "v1.0", SHA := some "0a1b2c", URL := none, Message := none, Tagger := none,
    Object := none, Verification := none, NodeID := none }

/-- An input tag with a target object, and server-assigned fields set. -/
def demoTag : Tag String Unit Bool :=
  { Tag := some "v1.0", SHA := some "ffff", URL := some "https://example.test/t",
    Message := some "release", Tagger := some "octocat",
    Object := some { SHA := some "abc123", Type_ := some "commit", rest := () },
    Verification := some true, NodeID := some "N1" }

/-- The same tag without a target object. -/
def demoTagNoObject : Tag String Unit Bool :=
  { demoTag with Object := none }

/-- A codec for the demo tagger type (a bare name). -/
def demoAuthorCodec : Codec String where
  zero := ""
  enc := fun a => JSON.obj [("name", JSON.str a)]
  dec := fun _ j =>
    match j with
    | JSON.obj [("name", JSON.str a)] => some a
    | _ => none

section Lemmas

variable {A X V Ctx Req Resp σ : Type}

theorem GetTag_builder_fails (s : GitService A X V Ctx Req Resp σ) (ctx : Ctx)
    (owner repo sha : String) (w : World A X V Ctx Req σ)
    (req : Option Req) (err : GoError) (st1 : σ)
    (hB : s.client.NewRequest "GET" (getTagPath owner repo sha) none w.st
      = ((req, some err), st1)) :
    s.GetTag ctx owner repo sha w
      = ((none, none, some err),
         { st := st1,
           calls := w.calls ++ [Call.NewRequest "GET" (getTagPath owner repo sha) none] }) := by
  unfold getTagPath at hB
  simp [GitService.GetTag, Client.callNewRequest, getTagPath, hB]

theorem GetTag_executor_fails (s : GitService A X V Ctx Req Resp σ) (ctx : Ctx)
    (owner repo sha : String) (w : World A X V Ctx Req σ)
    (req : Option Req) (st1 : σ) (t1 : Tag A X V) (resp : Option Resp) (err : GoError) (st2 : σ)
    (hB : s.client.NewRequest "GET" (getTagPath owner repo sha) none w.st
      = ((req, none), st1))
    (hD : s.client.Do ctx req newTag st1 = ((t1, resp, some err), st2)) :
    s.GetTag ctx owner repo sha w
      = ((none, resp, some err),
         { st := st2,
           calls := w.calls ++ [Call.NewRequest "GET" (getTagPath owner repo sha) none,
             Call.Do ctx req newTag] }) := by
  unfold getTagPath at hB
  simp [GitService.GetTag, Client.callNewRequest, Client.callDo, getTagPath, hB, hD]

theorem GetTag_succeeds (s : GitService A X V Ctx Req Resp σ) (ctx : Ctx)
    (owner repo sha : String) (w : World A X V Ctx Req σ)
    (req : Option Req) (st1 : σ) (t1 : Tag A X V) (resp : Option Resp) (st2 : σ)
    (hB : s.client.NewRequest "GET" (getTagPath owner repo sha) none w.st
      = ((req, none), st1))
    (hD : s.client.Do ctx req newTag st1 = ((t1, resp, none), st2)) :
    s.GetTag ctx owner repo sha w
      = ((some t1, resp, none),
         { st := st2,
           calls := w.calls ++ [Call.NewRequest "GET" (getTagPath owner repo sha) none,
             Call.Do ctx req newTag] }) := by
  unfold getTagPath at hB
  simp [GitService.GetTag, Client.callNewRequest, Client.callDo, getTagPath, hB, hD]

/-- The conversion block of `CreateTag` computes `projectTag`. -/
theorem conversion_eq_projectTag (t : Tag A X V) :
    (match t.Object with
      | some o =>
        ({ Tag := t.Tag, Message := t.Message, Tagger := t.Tagger,
           Object := o.SHA, Type_ := o.Type_ } : createTagRequest A)
      | none =>
        { Tag := t.Tag, Message := t.Message, Tagger := t.Tagger,
          Object := none, Type_ := none }) = projectTag t := by
  cases h : t.Object <;> simp [projectTag, h]

theorem CreateTag_builder_fails (s : GitService A X V Ctx Req Resp σ) (ctx : Ctx)
    (owner repo : String) (t : Tag A X V) (w : World A X V Ctx Req σ)
    (req : Option Req) (err : GoError) (st1 : σ)
    (hB : s.client.NewRequest "POST" (createTagPath owner repo) (some (projectTag t)) w.st
      = ((req, some err), st1)) :
    s.CreateTag ctx owner repo (some t) w
      = ((none, none, some err),
         { st := st1,
           calls := w.calls ++
             [Call.NewRequest "POST" (createTagPath owner repo) (some (projectTag t))] }) := by
  unfold createTagPath at hB
  simp [GitService.CreateTag, Client.callNewRequest, createTagPath,
    conversion_eq_projectTag, hB]

theorem CreateTag_executor_fails (s : GitService A X V Ctx Req Resp σ) (ctx : Ctx)
    (owner repo : String) (t : Tag A X V) (w : World A X V Ctx Req σ)
    (req : Option Req) (st1 : σ) (t1 : Tag A X V) (resp : Option Resp) (err : GoError) (st2 : σ)
    (hB : s.client.NewRequest "POST" (createTagPath owner repo) (some (projectTag t)) w.st
      = ((req, none), st1))
    (hD : s.client.Do ctx req newTag st1 = ((t1, resp, some err), st2)) :
    s.CreateTag ctx owner repo (some t) w
      = ((none, resp, some err),
         { st := st2,
           calls := w.calls ++
             [Call.NewRequest "POST" (createTagPath owner repo) (some (projectTag t)),
              Call.Do ctx req newTag] }) := by
  unfold createTagPath at hB
  simp [GitService.CreateTag, Client.callNewRequest, Client.callDo, createTagPath,
    conversion_eq_projectTag, hB, hD]

theorem CreateTag_succeeds (s : GitService A X V Ctx Req Resp σ) (ctx : Ctx)
    (owner repo : String) (t : Tag A X V) (w : World A X V Ctx Req σ)
    (req : Option Req) (st1 : σ) (t1 : Tag A X V) (resp : Option Resp) (st2 : σ)
    (hB : s.client.NewRequest "POST" (createTagPath owner repo) (some (projectTag t)) w.st
      = ((req, none), st1))
    (hD : s.client.Do ctx req newTag st1 = ((t1, resp, none), st2)) :
    s.CreateTag ctx owner repo (some t) w
      = ((some t1, resp, none),
         { st := st2,
           calls := w.calls ++
             [Call.NewRequest "POST" (createTagPath owner repo) (some (projectTag t)),
              Call.Do ctx req newTag] }) := by
  unfold createTagPath at hB
  simp [GitService.CreateTag, Client.callNewRequest, Client.callDo, createTagPath,
    conversion_eq_projectTag, hB, hD]

/-- Every call of `CreateTag` with a tag logs the builder call first, with
method POST, the tags path and the projected body, and no other builder call. -/
theorem CreateTag_calls (s : GitService A X V Ctx Req Resp σ) (ctx : Ctx)
    (owner repo : String) (t : Tag A X V) (w : World A X V Ctx Req σ) :
    ∃ rest, (s.CreateTag ctx owner repo (some t) w).2.calls
        = w.calls ++
          Call.NewRequest "POST" (createTagPath owner repo) (some (projectTag t)) :: rest
      ∧ rest.countP Call.isNewRequest = 0 := by
  rcases hB : s.client.NewRequest "POST" (createTagPath owner repo) (some (projectTag t)) w.st
    with ⟨⟨req, e⟩, st1⟩
  cases e with
  | some err =>
    exact ⟨[], by rw [CreateTag_builder_fails s ctx owner repo t w req err st1 hB], rfl⟩
  | none =>
    rcases hD : s.client.Do ctx req newTag st1 with ⟨⟨t1, resp, e2⟩, st2⟩
    cases e2 with
    | some err =>
      refine ⟨[Call.Do ctx req newTag], ?_, rfl⟩
      rw [CreateTag_executor_fails s ctx owner repo t w req st1 t1 resp err st2 hB hD]
    | none =>
      refine ⟨[Call.Do ctx req newTag], ?_, rfl⟩
      rw [CreateTag_succeeds s ctx owner repo t w req st1 t1 resp st2 hB hD]

/-- Every call of `GetTag` logs the builder call first, with method GET, the tag
path and no body, and no other builder call. -/
theorem GetTag_calls (s : GitService A X V Ctx Req Resp σ) (ctx : Ctx)
    (owner repo sha : String) (w : World A X V Ctx Req σ) :
    ∃ rest, (s.GetTag ctx owner repo sha w).2.calls
        = w.calls ++ Call.NewRequest "GET" (getTagPath owner repo sha) none :: rest
      ∧ rest.countP Call.isNewRequest = 0 := by
  rcases hB : s.client.NewRequest "GET" (getTagPath owner repo sha) none w.st
    with ⟨⟨req, e⟩, st1⟩
  cases e with
  | some err =>
    exact ⟨[], by rw [GetTag_builder_fails s ctx owner repo sha w req err st1 hB], rfl⟩
  | none =>
    rcases hD : s.client.Do ctx req newTag st1 with ⟨⟨t1, resp, e2⟩, st2⟩
    cases e2 with
    | some err =>
      refine ⟨[Call.Do ctx req newTag], ?_, rfl⟩
      rw [GetTag_executor_fails s ctx owner repo sha w req st1 t1 resp err st2 hB hD]
    | none =>
      refine ⟨[Call.Do ctx req newTag], ?_, rfl⟩
      rw [GetTag_succeeds s ctx owner repo sha w req st1 t1 resp st2 hB hD]

/-- Two tags with the same projection are treated alike by `CreateTag`. -/
theorem CreateTag_congr (s : GitService A X V Ctx Req Resp σ) (ctx : Ctx)
    (owner repo : String) (t t' : Tag A X V) (w : World A X V Ctx Req σ)
    (h : projectTag t = projectTag t') :
    s.CreateTag ctx owner repo (some t) w = s.CreateTag ctx owner repo (some t') w := by
  simp only [GitService.CreateTag, conversion_eq_projectTag, h]

/-- What each key of an encoded create-request holds. -/
theorem encodeCreateTagRequest_lookup (cA : Codec A) (r : createTagRequest A) :
    (encodeCreateTagRequest cA r).lookup "tag" = r.Tag.map JSON.str
    ∧ (encodeCreateTagRequest cA r).lookup "message" = r.Message.map JSON.str
    ∧ (encodeCreateTagRequest cA r).lookup "object" = r.Object.map JSON.str
    ∧ (encodeCreateTagRequest cA r).lookup "type" = r.Type_.map JSON.str
    ∧ (encodeCreateTagRequest cA r).lookup "tagger" = r.Tagger.map cA.enc := by
  rcases r with ⟨tg, msg, ob, ty, ta⟩
  cases tg <;> cases msg <;> cases ob <;> cases ty <;> cases ta <;>
    simp [encodeCreateTagRequest, JSON.lookup, omitEmpty, List.lookup]

/-- Which keys an encoded create-request has. -/
theorem encodeCreateTagRequest_keys (cA : Codec A) (r : createTagRequest A) :
    ("tag" ∈ (encodeCreateTagRequest cA r).keys ↔ r.Tag ≠ none)
    ∧ ("message" ∈ (encodeCreateTagRequest cA r).keys ↔ r.Message ≠ none)
    ∧ ("object" ∈ (encodeCreateTagRequest cA r).keys ↔ r.Object ≠ none)
    ∧ ("type" ∈ (encodeCreateTagRequest cA r).keys ↔ r.Type_ ≠ none)
    ∧ ("tagger" ∈ (encodeCreateTagRequest cA r).keys ↔ r.Tagger ≠ none) := by
  rcases r with ⟨tg, msg, ob, ty, ta⟩
  cases tg <;> cases msg <;> cases ob <;> cases ty <;> cases ta <;>
    simp [encodeCreateTagRequest, JSON.keys, omitEmpty]

end Lemmas

/-! ## The claims -/

section Claims

variable {A X V Ctx Req Resp σ : Type}

/-- C1: `CreateTag` called with a nil tag returns a nil entity, nil response
metadata and an error whose message is exactly "tag must be provided"; the world
it returns is the one it was given, so neither the builder nor the executor was
invoked and the collaborator state is untouched. -/
theorem CreateTag_nil_tag (s : GitService A X V Ctx Req Resp σ) (ctx : Ctx)
    (owner repo : String) (w : World A X V Ctx Req σ) :
    (∃ err, (s.CreateTag ctx owner repo none w).1 = (none, none, some err)
      ∧ err.Error = "tag must be provided")
    ∧ (s.CreateTag ctx owner repo none w).2 = w
    ∧ (s.CreateTag ctx owner repo none w).2.calls = w.calls := by
  refine ⟨⟨errorsNew "tag must be provided", rfl, rfl⟩, rfl, rfl⟩

/-- C2: for a tag whose target object `o` is present, the one builder call of
`CreateTag` is a POST whose body has `Object` equal to the SHA of `o`, `Type`
equal to the type of `o`, and tag name, message and tagger equal to the input's;
in the encoded body the keys `object` and `type` hold those two values as JSON
strings (no nested record), and `tag`, `message`, `tagger` hold the input's. -/
theorem CreateTag_flattens_object (s : GitService A X V Ctx Req Resp σ) (ctx : Ctx)
    (owner repo : String) (t : Tag A X V) (o : GitObject X) (w : World A X V Ctx Req σ)
    (cA : Codec A) (h : t.Object = some o) :
    ∃ body rest,
      (s.CreateTag ctx owner repo (some t) w).2.calls
        = w.calls ++
          Call.NewRequest "POST" ("repos/" ++ owner ++ "/" ++ repo ++ "/git/tags") (some body)
            :: rest
      ∧ rest.countP Call.isNewRequest = 0
      ∧ body.Object = o.SHA ∧ body.Type_ = o.Type_
      ∧ body.Tag = t.Tag ∧ body.Message = t.Message ∧ body.Tagger = t.Tagger
      ∧ (encodeCreateTagRequest cA body).lookup "object" = o.SHA.map JSON.str
      ∧ (encodeCreateTagRequest cA body).lookup "type" = o.Type_.map JSON.str
      ∧ (encodeCreateTagRequest cA body).lookup "tag" = t.Tag.map JSON.str
      ∧ (encodeCreateTagRequest cA body).lookup "message" = t.Message.map JSON.str
      ∧ (encodeCreateTagRequest cA body).lookup "tagger" = t.Tagger.map cA.enc := by
  obtain ⟨rest, hc, hn⟩ := CreateTag_calls s ctx owner repo t w
  obtain ⟨l1, l2, l3, l4, l5⟩ := encodeCreateTagRequest_lookup cA (projectTag t)
  refine ⟨projectTag t, rest, hc, hn, ?_, ?_, rfl, rfl, rfl, ?_, ?_, l1, l2, l5⟩
  · simp [projectTag, h]
  · simp [projectTag, h]
  · rw [l3]; simp [projectTag, h]
  · rw [l4]; simp [projectTag, h]

/-- C2 at the demo tag, whose target object is {SHA: "abc123", Type: "commit"}. -/
theorem CreateTag_flattens_object_witness :
    demoTag.Object = some { SHA := some "abc123", Type_ := some "commit", rest := () }
    ∧ ∃ body rest,
      (demoService.CreateTag () "o" "r" (some demoTag) coldWorld).2.calls
        = coldWorld.calls ++
          Call.NewRequest "POST" ("repos/" ++ "o" ++ "/" ++ "r" ++ "/git/tags") (some body)
            :: rest
      ∧ rest.countP Call.isNewRequest = 0
      ∧ body.Object = some "abc123" ∧ body.Type_ = some "commit"
      ∧ body.Tag = demoTag.Tag ∧ body.Message = demoTag.Message
      ∧ body.Tagger = demoTag.Tagger
      ∧ (encodeCreateTagRequest demoAuthorCodec body).lookup "object"
          = (some "abc123").map JSON.str
      ∧ (encodeCreateTagRequest demoAuthorCodec body).lookup "type"
          = (some "commit").map JSON.str
      ∧ (encodeCreateTagRequest demoAuthorCodec body).lookup "tag"
          = demoTag.Tag.map JSON.str
      ∧ (encodeCreateTagRequest demoAuthorCodec body).lookup "message"
          = demoTag.Message.map JSON.str
      ∧ (encodeCreateTagRequest demoAuthorCodec body).lookup "tagger"
          = demoTag.Tagger.map demoAuthorCodec.enc :=
  ⟨rfl, CreateTag_flattens_object demoService () "o" "r" demoTag
    { SHA := some "abc123", Type_ := some "commit", rest := () } coldWorld demoAuthorCodec rfl⟩

/-- C3: for a tag whose target object is nil, the one builder call of
`CreateTag` is a POST whose body has `Object` and `Type` nil, so that the
encoded body has neither the key `object` nor the key `type`, while tag name,
message and tagger are those of the input. -/
theorem CreateTag_omits_object (s : GitService A X V Ctx Req Resp σ) (ctx : Ctx)
    (owner repo : String) (t : Tag A X V) (w : World A X V Ctx Req σ)
    (cA : Codec A) (h : t.Object = none) :
    ∃ body rest,
      (s.CreateTag ctx owner repo (some t) w).2.calls
        = w.calls ++
          Call.NewRequest "POST" ("repos/" ++ owner ++ "/" ++ repo ++ "/git/tags") (some body)
            :: rest
      ∧ rest.countP Call.isNewRequest = 0
      ∧ body.Object = none ∧ body.Type_ = none
      ∧ body.Tag = t.Tag ∧ body.Message = t.Message ∧ body.Tagger = t.Tagger
      ∧ "object" ∉ (encodeCreateTagRequest cA body).keys
      ∧ "type" ∉ (encodeCreateTagRequest cA body).keys
      ∧ (encodeCreateTagRequest cA body).lookup "object" = none
      ∧ (encodeCreateTagRequest cA body).lookup "type" = none
      ∧ (encodeCreateTagRequest cA body).lookup "tag" = t.Tag.map JSON.str
      ∧ (encodeCreateTagRequest cA body).lookup "message" = t.Message.map JSON.str
      ∧ (encodeCreateTagRequest cA body).lookup "tagger" = t.Tagger.map cA.enc := by
  obtain ⟨rest, hc, hn⟩ := CreateTag_calls s ctx owner repo t w
  obtain ⟨l1, l2, l3, l4, l5⟩ := encodeCreateTagRequest_lookup cA (projectTag t)
  obtain ⟨-, -, k3, k4, -⟩ := encodeCreateTagRequest_keys cA (projectTag t)
  have ho : (projectTag t).Object = none := by simp [projectTag, h]
  have hty : (projectTag t).Type_ = none := by simp [projectTag, h]
  refine ⟨projectTag t, rest, hc, hn, ho, hty, rfl, rfl, rfl, ?_, ?_, ?_, ?_, l1, l2, l5⟩
  · rw [k3]; simp [ho]
  · rw [k4]; simp [hty]
  · rw [l3, ho]; rfl
  · rw [l4, hty]; rfl

/-- C3 at the demo tag without target object. -/
theorem CreateTag_omits_object_witness :
    demoTagNoObject.Object = none
    ∧ ∃ body rest,
      (demoService.CreateTag () "o" "r" (some demoTagNoObject) coldWorld).2.calls
        = coldWorld.calls ++
          Call.NewRequest "POST" ("repos/" ++ "o" ++ "/" ++ "r" ++ "/git/tags") (some body)
            :: rest
      ∧ rest.countP Call.isNewRequest = 0
      ∧ body.Object = none ∧ body.Type_ = none
      ∧ body.Tag = demoTagNoObject.Tag ∧ body.Message = demoTagNoObject.Message
      ∧ body.Tagger = demoTagNoObject.Tagger
      ∧ "object" ∉ (encodeCreateTagRequest demoAuthorCodec body).keys
      ∧ "type" ∉ (encodeCreateTagRequest demoAuthorCodec body).keys
      ∧ (encodeCreateTagRequest demoAuthorCodec body).lookup "object" = none
      ∧ (encodeCreateTagRequest demoAuthorCodec body).lookup "type" = none
      ∧ (encodeCreateTagRequest demoAuthorCodec body).lookup "tag"
          = demoTagNoObject.Tag.map JSON.str
      ∧ (encodeCreateTagRequest demoAuthorCodec body).lookup "message"
          = demoTagNoObject.Message.map JSON.str
      ∧ (encodeCreateTagRequest demoAuthorCodec body).lookup "tagger"
          = demoTagNoObject.Tagger.map demoAuthorCodec.enc :=
  ⟨rfl, CreateTag_omits_object demoService () "o" "r" demoTagNoObject coldWorld
    demoAuthorCodec rfl⟩

/-- C4: `GetTag` invokes the builder exactly once, with method GET, the path
`repos/{owner}/{repo}/git/tags/{sha}` and no body; when the builder returns a
request without error, the calls made are exactly that builder call followed by
one executor call with that request and a fresh `Tag` as destination; and when
the executor too returns no error, `GetTag` returns the tag the executor left in
the destination, the executor's response metadata and a nil error. -/
theorem GetTag_issues_one_GET (s : GitService A X V Ctx Req Resp σ) (ctx : Ctx)
    (owner repo sha : String) (w : World A X V Ctx Req σ) :
    (∃ rest, (s.GetTag ctx owner repo sha w).2.calls
        = w.calls ++
          Call.NewRequest "GET" ("repos/" ++ owner ++ "/" ++ repo ++ "/git/tags/" ++ sha) none
            :: rest
      ∧ rest.countP Call.isNewRequest = 0)
    ∧ ∀ req st1,
        s.client.NewRequest "GET" ("repos/" ++ owner ++ "/" ++ repo ++ "/git/tags/" ++ sha)
          none w.st = ((req, none), st1) →
        (s.GetTag ctx owner repo sha w).2.calls
          = w.calls ++
            [Call.NewRequest "GET" ("repos/" ++ owner ++ "/" ++ repo ++ "/git/tags/" ++ sha)
              none, Call.Do ctx req newTag]
        ∧ ∀ t1 resp st2, s.client.Do ctx req newTag st1 = ((t1, resp, none), st2) →
            (s.GetTag ctx owner repo sha w).1 = (some t1, resp, none)
            ∧ (s.GetTag ctx owner repo sha w).2.st = st2 := by
  refine ⟨GetTag_calls s ctx owner repo sha w, ?_⟩
  intro req st1 hB
  constructor
  · rcases hD : s.client.Do ctx req newTag st1 with ⟨⟨t1, resp, e2⟩, st2⟩
    cases e2 with
    | some err =>
      rw [GetTag_executor_fails s ctx owner repo sha w req st1 t1 resp err st2 hB hD]; rfl
    | none =>
      rw [GetTag_succeeds s ctx owner repo sha w req st1 t1 resp st2 hB hD]; rfl
  · intro t1 resp st2 hD
    rw [GetTag_succeeds s ctx owner repo sha w req st1 t1 resp st2 hB hD]
    exact ⟨rfl, rfl⟩

/-- C4 at the demo service, after three earlier round trips. -/
theorem GetTag_issues_one_GET_witness :
    (demoService.GetTag () "o" "r" "0a1b2c" warmWorld).2.calls
        = [Call.NewRequest "GET" "repos/o/r/git/tags/0a1b2c" none,
           Call.Do () (some ("GET", "repos/o/r/git/tags/0a1b2c")) newTag]
    ∧ (demoService.GetTag () "o" "r" "0a1b2c" warmWorld).1 = (some demoDecoded, some 201, none)
    ∧ (demoService.GetTag () "o" "r" "0a1b2c" warmWorld).2.st = 4 :=
  have h := (GetTag_issues_one_GET demoService () "o" "r" "0a1b2c" warmWorld).2
    (some ("GET", "repos/o/r/git/tags/0a1b2c")) 3 rfl
  ⟨h.1, h.2 demoDecoded (some 201) 4 rfl⟩

/-- C5: for a non-nil tag, when the builder and the executor both return no
error, the calls `CreateTag` makes are exactly one builder call with method
POST, path `repos/{owner}/{repo}/git/tags` and the projected create-request as
body, followed by one executor call with the request built; it returns the tag
the executor left in the destination, the executor's response metadata and a nil
error. For the tag {Tag: "v1.0", Message: "release", Object: {SHA: "deadbeef",
Type: "commit"}} with owner "o" and repo "r" the body handed to the builder
encodes as exactly `{"tag":"v1.0","message":"release","object":"deadbeef","type":"commit"}`. -/
theorem CreateTag_posts_projection :
    (∀ (s : GitService A X V Ctx Req Resp σ) (ctx : Ctx) (owner repo : String)
        (t : Tag A X V) (w : World A X V Ctx Req σ) (req : Option Req) (st1 : σ)
        (t1 : Tag A X V) (resp : Option Resp) (st2 : σ),
        s.client.NewRequest "POST" ("repos/" ++ owner ++ "/" ++ repo ++ "/git/tags")
          (some (projectTag t)) w.st = ((req, none), st1) →
        s.client.Do ctx req newTag st1 = ((t1, resp, none), st2) →
        s.CreateTag ctx owner repo (some t) w
          = ((some t1, resp, none),
             { st := st2,
               calls := w.calls ++
                 [Call.NewRequest "POST" ("repos/" ++ owner ++ "/" ++ repo ++ "/git/tags")
                    (some (projectTag t)),
                  Call.Do ctx req newTag] }))
    ∧ ∀ (s : GitService A X V Ctx Req Resp σ) (ctx : Ctx) (w : World A X V Ctx Req σ)
        (x : X) (cA : Codec A) (escapeHTML : Bool),
        ∃ body rest,
          (s.CreateTag ctx "o" "r"
            (some { Tag := some "v1.0", SHA := none, URL := none, Message := some "release",
                    Tagger := none,
                    Object := some { SHA := some "deadbeef", Type_ := some "commit", rest := x },
                    Verification := none, NodeID := none }) w).2.calls
            = w.calls ++ Call.NewRequest "POST" "repos/o/r/git/tags" (some body) :: rest
          ∧ rest.countP Call.isNewRequest = 0
          ∧ (encodeCreateTagRequest cA body).render escapeHTML
            = "\x7b\"tag\":\"v1.0\",\"message\":\"release\",\"object\":\"deadbeef\",\"type\":\"commit\"\x7d" := by
  constructor
  · intro s ctx owner repo t w req st1 t1 resp st2 hB hD
    exact CreateTag_succeeds s ctx owner repo t w req st1 t1 resp st2 hB hD
  · intro s ctx w x cA escapeHTML
    obtain ⟨rest, hc, hn⟩ := CreateTag_calls s ctx "o" "r"
      { Tag := some "v1.0", SHA := none, URL := none, Message := some "release",
        Tagger := none,
        Object := some { SHA := some "deadbeef", Type_ := some "commit", rest := x },
        Verification := none, NodeID := none } w
    refine ⟨_, rest, hc, hn, ?_⟩
    cases escapeHTML <;> rfl

/-- C5 at the demo service, after three earlier round trips. -/
theorem CreateTag_posts_projection_witness :
    demoService.CreateTag () "o" "r" (some demoTag) warmWorld
      = ((some demoDecoded, some 201, none),
         { st := 4,
           calls := [Call.NewRequest "POST" "repos/o/r/git/tags"
                       (some { Tag := some "v1.0", Message := some "release",
                               Object := some "abc123", Type_ := some "commit",
                               Tagger := some "octocat" }),
                     Call.Do () (some ("POST", "repos/o/r/git/tags")) newTag] }) :=
  (@CreateTag_posts_projection String Unit Bool Unit (String × String) Nat Nat).1
    demoService () "o" "r" demoTag warmWorld
    (some ("POST", "repos/o/r/git/tags")) 3 demoDecoded (some 201) 4 rfl rfl

/-- C6: for `GetTag`, and for `CreateTag` with a non-nil tag, when the builder
returned no error and the executor returns an error, the operation returns a nil
entity, the response metadata the executor returned (nil or not) and the very
error the executor returned. -/
theorem executor_error_passed_through :
    (∀ (s : GitService A X V Ctx Req Resp σ) (ctx : Ctx) (owner repo sha : String)
        (w : World A X V Ctx Req σ) (req : Option Req) (st1 : σ)
        (t1 : Tag A X V) (resp : Option Resp) (err : GoError) (st2 : σ),
        s.client.NewRequest "GET" (getTagPath owner repo sha) none w.st = ((req, none), st1) →
        s.client.Do ctx req newTag st1 = ((t1, resp, some err), st2) →
        (s.GetTag ctx owner repo sha w).1 = (none, resp, some err))
    ∧ ∀ (s : GitService A X V Ctx Req Resp σ) (ctx : Ctx) (owner repo : String)
        (t : Tag A X V) (w : World A X V Ctx Req σ) (req : Option Req) (st1 : σ)
        (t1 : Tag A X V) (resp : Option Resp) (err : GoError) (st2 : σ),
        s.client.NewRequest "POST" (createTagPath owner repo) (some (projectTag t)) w.st
          = ((req, none), st1) →
        s.client.Do ctx req newTag st1 = ((t1, resp, some err), st2) →
        (s.CreateTag ctx owner repo (some t) w).1 = (none, resp, some err) := by
  constructor
  · intro s ctx owner repo sha w req st1 t1 resp err st2 hB hD
    rw [GetTag_executor_fails s ctx owner repo sha w req st1 t1 resp err st2 hB hD]
  · intro s ctx owner repo t w req st1 t1 resp err st2 hB hD
    rw [CreateTag_executor_fails s ctx owner repo t w req st1 t1 resp err st2 hB hD]

/-- C6 at the demo service on its first round trip, which the executor answers
with status 502 and an error. -/
theorem executor_error_passed_through_witness :
    (demoService.GetTag () "o" "r" "0a1b2c" coldWorld).1
        = (none, some 502, some (GoError.foreign 3 "bad gateway"))
    ∧ (demoService.CreateTag () "o" "r" (some demoTag) coldWorld).1
        = (none, some 502, some (GoError.foreign 3 "bad gateway")) :=
  ⟨(@executor_error_passed_through String Unit Bool Unit (String × String) Nat Nat).1
      demoService () "o" "r" "0a1b2c" coldWorld (some ("GET", "repos/o/r/git/tags/0a1b2c")) 0
      newTag (some 502) (GoError.foreign 3 "bad gateway") 1 rfl rfl,
   (@executor_error_passed_through String Unit Bool Unit (String × String) Nat Nat).2
      demoService () "o" "r" demoTag coldWorld (some ("POST", "repos/o/r/git/tags")) 0
      newTag (some 502) (GoError.foreign 3 "bad gateway") 1 rfl rfl⟩

/-- C7: for `GetTag`, and for `CreateTag` with a non-nil tag, when the builder
returns an error, the operation returns a nil entity, nil response metadata and
the builder's error; the only call it made is the builder call, so the executor
was not invoked, and the collaborator state is the one the builder left. -/
theorem builder_error_passed_through :
    (∀ (s : GitService A X V Ctx Req Resp σ) (ctx : Ctx) (owner repo sha : String)
        (w : World A X V Ctx Req σ) (req : Option Req) (err : GoError) (st1 : σ),
        s.client.NewRequest "GET" (getTagPath owner repo sha) none w.st
          = ((req, some err), st1) →
        (s.GetTag ctx owner repo sha w).1 = (none, none, some err)
        ∧ (s.GetTag ctx owner repo sha w).2.calls
          = w.calls ++ [Call.NewRequest "GET" (getTagPath owner repo sha) none]
        ∧ ((s.GetTag ctx owner repo sha w).2.calls.drop w.calls.length).countP Call.isDo = 0
        ∧ (s.GetTag ctx owner repo sha w).2.st = st1)
    ∧ ∀ (s : GitService A X V Ctx Req Resp σ) (ctx : Ctx) (owner repo : String)
        (t : Tag A X V) (w : World A X V Ctx Req σ) (req : Option Req) (err : GoError)
        (st1 : σ),
        s.client.NewRequest "POST" (createTagPath owner repo) (some (projectTag t)) w.st
          = ((req, some err), st1) →
        (s.CreateTag ctx owner repo (some t) w).1 = (none, none, some err)
        ∧ (s.CreateTag ctx owner repo (some t) w).2.calls
          = w.calls ++
            [Call.NewRequest "POST" (createTagPath owner repo) (some (projectTag t))]
        ∧ ((s.CreateTag ctx owner repo (some t) w).2.calls.drop w.calls.length).countP
            Call.isDo = 0
        ∧ (s.CreateTag ctx owner repo (some t) w).2.st = st1 := by
  constructor
  · intro s ctx owner repo sha w req err st1 hB
    rw [GetTag_builder_fails s ctx owner repo sha w req err st1 hB]
    refine ⟨rfl, rfl, ?_, rfl⟩
    simp [Call.isDo]
  · intro s ctx owner repo t w req err st1 hB
    rw [CreateTag_builder_fails s ctx owner repo t w req err st1 hB]
    refine ⟨rfl, rfl, ?_, rfl⟩
    simp [Call.isDo]

/-- C7 at the demo service with an owner holding a blank, which the demo builder
rejects. -/
theorem builder_error_passed_through_witness :
    ((demoService.GetTag () "o o" "r" "0a1b2c" coldWorld).1
        = (none, none, some (GoError.foreign 1 "malformed path"))
      ∧ (demoService.GetTag () "o o" "r" "0a1b2c" coldWorld).2.calls
        = coldWorld.calls ++ [Call.NewRequest "GET" (getTagPath "o o" "r" "0a1b2c") none]
      ∧ ((demoService.GetTag () "o o" "r" "0a1b2c" coldWorld).2.calls.drop
          coldWorld.calls.length).countP Call.isDo = 0
      ∧ (demoService.GetTag () "o o" "r" "0a1b2c" coldWorld).2.st = 0)
    ∧ ((demoService.CreateTag () "o o" "r" (some demoTag) coldWorld).1
        = (none, none, some (GoError.foreign 1 "malformed path"))
      ∧ (demoService.CreateTag () "o o" "r" (some demoTag) coldWorld).2.calls
        = coldWorld.calls ++
          [Call.NewRequest "POST" (createTagPath "o o" "r") (some (projectTag demoTag))]
      ∧ ((demoService.CreateTag () "o o" "r" (some demoTag) coldWorld).2.calls.drop
          coldWorld.calls.length).countP Call.isDo = 0
      ∧ (demoService.CreateTag () "o o" "r" (some demoTag) coldWorld).2.st = 0) :=
  ⟨(@builder_error_passed_through String Unit Bool Unit (String × String) Nat Nat).1
      demoService () "o o" "r" "0a1b2c" coldWorld none (GoError.foreign 1 "malformed path") 0
      rfl,
   (@builder_error_passed_through String Unit Bool Unit (String × String) Nat Nat).2
      demoService () "o o" "r" demoTag coldWorld none (GoError.foreign 1 "malformed path") 0
      rfl⟩

/-- C8: two non-nil tags that agree on tag name, message, tagger and on the SHA
and the type of the target object (whatever their own SHA, URL, Verification and
NodeID) make `CreateTag` hand the same method, path and body to the builder; the
whole run, its results and the calls it makes, is the same for both. -/
theorem CreateTag_ignores_server_fields (s : GitService A X V Ctx Req Resp σ) (ctx : Ctx)
    (owner repo : String) (t t' : Tag A X V) (w : World A X V Ctx Req σ)
    (hTag : t.Tag = t'.Tag) (hMessage : t.Message = t'.Message)
    (hTagger : t.Tagger = t'.Tagger)
    (hSHA : t.Object.bind (fun o => o.SHA) = t'.Object.bind (fun o => o.SHA))
    (hType : t.Object.bind (fun o => o.Type_) = t'.Object.bind (fun o => o.Type_)) :
    (∃ method urlStr body rest rest',
      (s.CreateTag ctx owner repo (some t) w).2.calls
        = w.calls ++ Call.NewRequest method urlStr body :: rest
      ∧ (s.CreateTag ctx owner repo (some t') w).2.calls
        = w.calls ++ Call.NewRequest method urlStr body :: rest'
      ∧ rest.countP Call.isNewRequest = 0 ∧ rest'.countP Call.isNewRequest = 0)
    ∧ s.CreateTag ctx owner repo (some t) w = s.CreateTag ctx owner repo (some t') w := by
  have hp : projectTag t = projectTag t' := by
    simp [projectTag, hTag, hMessage, hTagger, hSHA, hType]
  obtain ⟨rest, hc, hn⟩ := CreateTag_calls s ctx owner repo t w
  obtain ⟨rest', hc', hn'⟩ := CreateTag_calls s ctx owner repo t' w
  refine ⟨⟨"POST", createTagPath owner repo, some (projectTag t), rest, rest', hc, ?_, hn, hn'⟩,
    CreateTag_congr s ctx owner repo t t' w hp⟩
  rw [hp]; exact hc'

/-- C8 at the demo tag and a tag that differs from it in SHA, URL, Verification
and NodeID. -/
theorem CreateTag_ignores_server_fields_witness :
    (∃ method urlStr body rest rest',
      (demoService.CreateTag () "o" "r" (some demoTag) warmWorld).2.calls
        = warmWorld.calls ++ Call.NewRequest method urlStr body :: rest
      ∧ (demoService.CreateTag () "o" "r"
          (some { demoTag with SHA := none, URL := some "u", Verification := none,
                               NodeID := some "N2" }) warmWorld).2.calls
        = warmWorld.calls ++ Call.NewRequest method urlStr body :: rest'
      ∧ rest.countP Call.isNewRequest = 0 ∧ rest'.countP Call.isNewRequest = 0)
    ∧ demoService.CreateTag () "o" "r" (some demoTag) warmWorld
      = demoService.CreateTag () "o" "r"
          (some { demoTag with SHA := none, URL := some "u", Verification := none,
                               NodeID := some "N2" }) warmWorld :=
  CreateTag_ignores_server_fields demoService () "o" "r" demoTag
    { demoTag with SHA := none, URL := some "u", Verification := none, NodeID := some "N2" }
    warmWorld rfl rfl rfl rfl rfl

/-- C10: in the body `CreateTag` hands to the builder for a non-nil tag,
`Object` is present exactly when the target object is present and has a SHA, and
`Type` is present exactly when the target object is present and has a type; the
same holds for the keys `object` and `type` of the encoded body. A tag whose
target object is present with neither SHA nor type is treated exactly like the
same tag without target object. -/
theorem CreateTag_object_type_presence (s : GitService A X V Ctx Req Resp σ) (ctx : Ctx)
    (owner repo : String) (t : Tag A X V) (w : World A X V Ctx Req σ) (cA : Codec A) :
    (∃ body rest,
      (s.CreateTag ctx owner repo (some t) w).2.calls
        = w.calls ++
          Call.NewRequest "POST" ("repos/" ++ owner ++ "/" ++ repo ++ "/git/tags") (some body)
            :: rest
      ∧ rest.countP Call.isNewRequest = 0
      ∧ (body.Object ≠ none ↔ ∃ o, t.Object = some o ∧ o.SHA ≠ none)
      ∧ (body.Type_ ≠ none ↔ ∃ o, t.Object = some o ∧ o.Type_ ≠ none)
      ∧ ("object" ∈ (encodeCreateTagRequest cA body).keys
          ↔ ∃ o, t.Object = some o ∧ o.SHA ≠ none)
      ∧ ("type" ∈ (encodeCreateTagRequest cA body).keys
          ↔ ∃ o, t.Object = some o ∧ o.Type_ ≠ none))
    ∧ ∀ x : X,
        s.CreateTag ctx owner repo
            (some { t with Object := some { SHA := none, Type_ := none, rest := x } }) w
          = s.CreateTag ctx owner repo (some { t with Object := none }) w := by
  obtain ⟨rest, hc, hn⟩ := CreateTag_calls s ctx owner repo t w
  obtain ⟨-, -, k3, k4, -⟩ := encodeCreateTagRequest_keys cA (projectTag t)
  have ho : (projectTag t).Object ≠ none ↔ ∃ o, t.Object = some o ∧ o.SHA ≠ none := by
    cases h : t.Object <;> simp [projectTag, h]
  have hty : (projectTag t).Type_ ≠ none ↔ ∃ o, t.Object = some o ∧ o.Type_ ≠ none := by
    cases h : t.Object <;> simp [projectTag, h]
  refine ⟨⟨projectTag t, rest, hc, hn, ho, hty, k3.trans ho, k4.trans hty⟩, ?_⟩
  intro x
  exact CreateTag_congr s ctx owner repo _ _ w rfl

end Claims

/-! ## UTF-8 lemmas -/

section WireLemmas

variable {A G V : Type}

theorem decodeRune_length (bs : GoString) (c : Char) (r : GoString)
    (h : decodeRune bs = some (c, r)) : r.length < bs.length := by
  unfold decodeRune at h
  repeat' split at h
  all_goals first
    | (cases h; done)
    | (simp only [Option.some.injEq, Prod.mk.injEq] at h
       obtain ⟨-, rfl⟩ := h
       simp only [List.length_cons]
       omega)

/-- One step per byte is enough: more fuel does not change the result. -/
theorem toValidUTF8Aux_fuel (f : Nat) : ∀ bs : GoString, bs.length ≤ f →
    toValidUTF8Aux f bs = toValidUTF8Aux bs.length bs := by
  induction f using Nat.strong_induction_on with
  | _ f ih =>
    intro bs hf
    cases bs with
    | nil => cases f <;> rfl
    | cons b0 rest =>
      cases f with
      | zero => simp at hf
      | succ f =>
        simp only [List.length_cons] at hf ⊢
        have hr : rest.length ≤ f := by omega
        simp only [toValidUTF8Aux]
        cases hd : decodeRune (b0 :: rest) with
        | none =>
          simp only
          rw [ih f (by omega) rest hr]
        | some p =>
          obtain ⟨c, r⟩ := p
          have hl := decodeRune_length _ _ _ hd
          simp only [List.length_cons] at hl
          simp only
          rw [ih f (by omega) r (by omega)]
          by_cases hq : rest.length = f
          · subst hq; rw [ih rest.length (by omega) r (by omega)]
          · rw [ih rest.length (by omega) r (by omega)]

end WireLemmas

/-! ## The wire format of `Tag` -/

section WireClaims

variable {A G V : Type}

end WireClaims

end GoGithub
